import Mathlib

/-!
Verification of the CyclObs L2 gridded NetCDF reader
(`satpy/readers/cyclobs_l2_gridded_nc.py`).

The reader is embedded shallowly: Python dictionaries become association
lists with first-match lookup where `update` prepends the new bindings,
NetCDF variables become records of data, time coordinate and attributes,
and every fallible file access returns an `Option`.
-/

namespace CyclObs

/-- Attribute values stored in the various attribute mappings: strings,
integers, calendar timestamps (tagged by their raw nanosecond integer, as
produced by `datetime.utcfromtimestamp(raw * 1e-9)`), and one level of
nested string-valued mapping (used for the file-level global attributes). -/
inductive AVal where
  | s : String → AVal
  | i : Int → AVal
  | t : Int → AVal
  | m : List (String × String) → AVal
deriving DecidableEq, Repr

/-- A Python-dict-like attribute mapping: association list, first match wins. -/
abbrev AttrMap := List (String × AVal)

/-- Dictionary lookup, `d[k]` / `d.get(k)`: first binding for the key. -/
def aget (mp : AttrMap) (k : String) : Option AVal := mp.lookup k

/-- Dictionary update `base.update(new)`: bindings of `new` shadow `base`. -/
def aupd (base new : AttrMap) : AttrMap := new ++ base

/-- Keys of an attribute mapping. -/
def akeys (mp : AttrMap) : List String := mp.map Prod.fst

/-- Extract a string value; a non-string used where the code indexes a
string-keyed dictionary or the file makes the access fail. -/
def asStr : AVal → Option String
  | .s x => some x
  | _ => none

/-- Data of a NetCDF variable as the reader consumes it: a 2-D grid
possibly wrapped in leading singleton dimensions (`one` is a
length-one outer axis), the domain on which `data.squeeze()` followed by
`np.flipud` is well defined. -/
inductive SrcData (α : Type) where
  | mat : List (List α) → SrcData α
  | one : SrcData α → SrcData α
deriving DecidableEq, Repr

/-- Model of `.squeeze()` on such data: drop the singleton dimensions,
leaving the 2-D grid. -/
def squeeze {α : Type} : SrcData α → List (List α)
  | .mat g => g
  | .one d => squeeze d

/-- Model of `np.flipud`: reverse the row order. -/
def flipud {α : Type} (g : List (List α)) : List (List α) := g.reverse

/-- A NetCDF variable: its gridded data, its `time` coordinate (integer
nanosecond epoch samples) and its native attributes. -/
structure NCVariable (α : Type) where
  data : SrcData α
  timeNs : List Int
  attrs : AttrMap
deriving DecidableEq, Repr

/-- The backing NetCDF file: named variables, the 1-D `lat` and `lon`
coordinate vectors, and the file-level (global) attributes. -/
structure NCFile (α : Type) where
  vars : List (String × NCVariable α)
  lat : List α
  lon : List α
  globalAttrs : List (String × String)
deriving DecidableEq, Repr

/-- The file handler: the open file plus the metadata parsed from the
file name (`filename_info`). -/
structure FileHandler (α : Type) where
  file : NCFile α
  filename_info : AttrMap
deriving DecidableEq, Repr

/-- The fixed platform table assigned in `__init__`:
`self.platforms = {"rs2": "RADARSAT-2", "s1a": "SENTINEL-1A", "s1b": "SENTINEL-1B"}`. -/
def platformsTable : List (String × String) :=
  [("rs2", "RADARSAT-2"), ("s1a", "SENTINEL-1A"), ("s1b", "SENTINEL-1B")]

/-- The `platforms` attribute of a handler (the constant table set once
per instance in `__init__`). -/
def platforms {α : Type} (_fh : FileHandler α) : List (String × String) :=
  platformsTable

/-- Property `start_time`: `self.filename_info['start_time']`; a missing
key raises, modelled by `none`. -/
def start_time {α : Type} (fh : FileHandler α) : Option AVal :=
  aget fh.filename_info "start_time"

/-- Property `end_time`: `self.filename_info.get('end_time', self.start_time)`.
Python evaluates the default `self.start_time` eagerly, so a missing
`start_time` key raises even when `end_time` is present. -/
def end_time {α : Type} (fh : FileHandler α) : Option AVal :=
  (start_time fh).map (fun st => (aget fh.filename_info "end_time").getD st)

/-- Property `sensor_name`: the constant `"sar-c"`. -/
def sensor_name {α : Type} (_fh : FileHandler α) : String := "sar-c"

/-- Property `platform_shortname`: `self.filename_info['platform_shortname']`. -/
def platform_shortname {α : Type} (fh : FileHandler α) : Option AVal :=
  aget fh.filename_info "platform_shortname"

/-- A dataset identifier; the reader only reads `ds_id['name']`. -/
structure DsId where
  name : String
deriving DecidableEq, Repr

end CyclObs

namespace CyclObs

/-- Claim C5 helper statement list of recognized shortnames. -/
def recognizedShortnames : List String := ["rs2", "s1a", "s1b"]

/-- The derived-field dictionary literal of `get_metadata` stage (3). -/
def derivedOf (ps : AVal) (pn : String) (st et : AVal) : AttrMap :=
  [("platform_shortname", ps), ("platform_name", .s pn), ("sensor", .s "sar-c"),
   ("start_time", st), ("end_time", et)]

/-- Method `get_metadata(self, data, info)`: builds a fresh dictionary by
successive `update` calls, in source order: (1) `data.attrs`, (2) `info`,
(3) the derived-field literal (whose evaluation does the platform-table
lookup and the `start_time`/`end_time` property reads), (4)
`self[info.get('file_key')].variable.attrs` — note the missing default:
when `info` has no `file_key` this indexes the file with `None`, which
the access layer rejects — and (5) `{'global_attributes': self['/attrs']}`. -/
def get_metadata {α : Type} (fh : FileHandler α) (dataAttrs info : AttrMap) :
    Option AttrMap := do
  let ps ← platform_shortname fh
  let psStr ← asStr ps
  let pn ← (platforms fh).lookup psStr
  let st ← start_time fh
  let et ← end_time fh
  let fkV ← aget info "file_key"
  let fk ← asStr fkV
  let v ← fh.file.vars.lookup fk
  return aupd (aupd (aupd (aupd (aupd [] dataAttrs) info) (derivedOf ps pn st et))
    v.attrs) [("global_attributes", AVal.m fh.file.globalAttrs)]

/-- Model of `datetime.utcfromtimestamp(raw.astype(int) * 1e-9)`: the
calendar timestamp determined by the raw integer nanosecond value. -/
def utcfromtimestampNs (ns : Int) : AVal := AVal.t ns

/-- Resolution of the source variable name in `get_dataset`:
`info.get('file_key', ds_id['name'])`. A non-string `file_key` value
would make the subsequent file indexing fail. -/
def file_key_of (ds_id : DsId) (info : AttrMap) : Option String :=
  match aget info "file_key" with
  | some v => asStr v
  | none => some ds_id.name

/-- The labeled array (`xarray.DataArray`) returned by `get_dataset`. -/
structure DataArrayM (α : Type) where
  dims : List String
  data : List (List α)
  attrs : AttrMap
deriving DecidableEq, Repr

/-- Model of `DataArray.rename(sub)`: returns a renamed copy. -/
def rename {α : Type} (d : DataArrayM α) (sub : List (String × String)) :
    DataArrayM α :=
  { d with dims := d.dims.map (fun s => (sub.lookup s).getD s) }

/-- Lines 66-69 of the source: each conditional calls `data.rename(...)`
but never binds the returned copy back to `data`, so the local array is
passed through unchanged in either branch. -/
def renameLines {α : Type} (d : DataArrayM α) : DataArrayM α :=
  let d1 := if "lon" ∈ d.dims then (fun _r : DataArrayM α => d) (rename d [("lon", "x")]) else d
  let d2 := if "lat" ∈ d1.dims then (fun _r : DataArrayM α => d1) (rename d1 [("lat", "y")]) else d1
  d2

/-- Model of `.chunk("auto")`: a lazy re-chunking, identity on the values. -/
def chunkAuto {α : Type} (d : DataArrayM α) : DataArrayM α := d

/-- Method `get_dataset(self, ds_id, info)`: resolve the source variable,
read its first `time` sample, squeeze and vertically flip the grid, wrap
it with dims `['y', 'x']`, set the `time` attribute, replace the
attributes with `get_metadata`'s result, run the (no-op) renames, and
return the re-chunked array. -/
def get_dataset {α : Type} (fh : FileHandler α) (ds_id : DsId) (info : AttrMap) :
    Option (DataArrayM α) := do
  let fk ← file_key_of ds_id info
  let v ← fh.file.vars.lookup fk
  let t0 ← v.timeNs.head?
  let time := utcfromtimestampNs t0
  let d := flipud (squeeze v.data)
  let attrs1 := aupd [] [("time", time)]
  let meta ← get_metadata fh attrs1 info
  let da : DataArrayM α := { dims := ["y", "x"], data := d, attrs := meta }
  return chunkAuto (renameLines da)

/-- Variant of `get_dataset` with the rename lines 66-69 removed,
used to state the refinement claim C9. -/
def get_dataset_norename {α : Type} (fh : FileHandler α) (ds_id : DsId)
    (info : AttrMap) : Option (DataArrayM α) := do
  let fk ← file_key_of ds_id info
  let v ← fh.file.vars.lookup fk
  let t0 ← v.timeNs.head?
  let time := utcfromtimestampNs t0
  let d := flipud (squeeze v.data)
  let attrs1 := aupd [] [("time", time)]
  let meta ← get_metadata fh attrs1 info
  let da : DataArrayM α := { dims := ["y", "x"], data := d, attrs := meta }
  return chunkAuto da

/-- The area descriptor produced by `pyresample`'s `AreaDefinition`
constructor, restricted to the fields the reader passes. -/
structure AreaDefinition (α : Type) where
  area_id : String
  description : String
  proj_id : String
  projection : String
  width : Nat
  height : Nat
  area_extent : α × α × α × α
deriving DecidableEq, Repr

/-- Model of `np.meshgrid(x, y)`: the pair `(X, Y)` of grids of shape
`(len y, len x)` with `X[i][j] = x[j]` and `Y[i][j] = y[i]`. -/
def meshgrid {α : Type} (x y : List α) : List (List α) × List (List α) :=
  (y.map (fun _ => x), y.map (fun yi => x.map (fun _ => yi)))

/-- Two-level list indexing, failing out of bounds like NumPy indexing. -/
def idx2 {α : Type} (g : List (List α)) (i j : Nat) : Option α :=
  g[i]?.bind (fun row => row[j]?)

/-- Method `get_area_def(self, dsid)`: flip `lat`, mesh `(lon, flip_lat)`,
take width and height from the coordinate shapes, extract the lower-left
corner at row `height-1` column `0` and the upper-right corner at row `0`
column `width-1`, and build the fixed-CRS area definition. -/
def get_area_def {α : Type} (fh : FileHandler α) (_dsid : DsId) :
    Option (AreaDefinition α) := do
  let flip_lat := fh.file.lat.reverse
  let latlon := meshgrid fh.file.lon flip_lat
  let width := fh.file.lon.length
  let height := fh.file.lat.length
  let lower_left_x ← idx2 latlon.1 (height - 1) 0
  let lower_left_y ← idx2 latlon.2 (height - 1) 0
  let upper_right_y ← idx2 latlon.2 0 (width - 1)
  let upper_right_x ← idx2 latlon.1 0 (width - 1)
  return { area_id := "cyclobs", description := "CyclObs L2 WGS84",
           proj_id := "World Geodetic System 1984", projection := "EPSG:4326",
           width := width, height := height,
           area_extent := (lower_left_x, lower_left_y, upper_right_x, upper_right_y) }

end CyclObs

namespace CyclObs

theorem lookup_append {β : Type} (n b : List (String × β)) (k : String) :
    (n ++ b).lookup k = (n.lookup k).or (b.lookup k) := by
  induction n with
  | nil => simp
  | cons x xs ih =>
    cases x with
    | mk k' v =>
      simp only [List.cons_append, List.lookup]
      cases hkk : k == k' <;> simp [ih]

theorem aget_aupd (b n : AttrMap) (k : String) :
    aget (aupd b n) k = (aget n k).or (aget b k) :=
  lookup_append n b k

theorem aget_eq_none_of_not_mem (m : AttrMap) (k : String) (h : k ∉ akeys m) :
    aget m k = none := by
  induction m with
  | nil => rfl
  | cons x xs ih =>
    cases x with
    | mk k' v =>
      simp [akeys] at h
      have e : (k == k') = false := by simp [h.1]
      simpa [aget, List.lookup, e] using ih (by simp [akeys, h.2])

theorem aget_isSome_of_mem (m : AttrMap) (k : String) (h : k ∈ akeys m) :
    (aget m k).isSome := by
  induction m with
  | nil => simp [akeys] at h
  | cons x xs ih =>
    cases x with
    | mk k' v =>
      by_cases hk : k = k'
      · subst hk; simp [aget, List.lookup]
      · have e : (k == k') = false := by simp [hk]
        simp only [akeys, List.map_cons] at h
        rcases List.mem_cons.mp h with h' | h'
        · exact absurd h' hk
        · simpa [aget, List.lookup, e] using ih h'

theorem platformsTable_lookup_none {s : String} (h : s ∉ recognizedShortnames) :
    platformsTable.lookup s = none := by
  simp [recognizedShortnames] at h
  have e1 : (s == "rs2") = false := by simp [h.1]
  have e2 : (s == "s1a") = false := by simp [h.2.1]
  have e3 : (s == "s1b") = false := by simp [h.2.2]
  simp [platformsTable, List.lookup, e1, e2, e3]

theorem renameLines_mk {α : Type} (d : List (List α)) (a : AttrMap) :
    renameLines { dims := ["y", "x"], data := d, attrs := a } =
      { dims := ["y", "x"], data := d, attrs := a } := by
  simp [renameLines]

theorem get_dataset_some_dims {α : Type} {fh : FileHandler α} {ds : DsId}
    {info : AttrMap} {da : DataArrayM α} (h : get_dataset fh ds info = some da) :
    da.dims = ["y", "x"] := by
  simp only [get_dataset, Option.bind_eq_bind, Option.bind_eq_some, Option.pure_def,
    Option.some.injEq] at h
  obtain ⟨fk, hfk, v, hv, t0, ht0, meta, hmeta, hda⟩ := h
  rw [← hda, renameLines_mk]
  rfl

/-- Example NetCDF variable used to instantiate the proved theorems:
a 2x3 grid under one leading singleton dimension. -/
def exVar : NCVariable Int :=
  { data := .one (.mat [[1, 2, 3], [4, 5, 6]]),
    timeNs := [1700000000000000000],
    attrs := [("units", .s "m s-1")] }

/-- Example file with one data variable and a 2-sample lat, 3-sample lon grid. -/
def exFile : NCFile Int :=
  { vars := [("wind_speed", exVar)], lat := [10, 20], lon := [100, 110, 120],
    globalAttrs := [("Conventions", "CF-1.6")] }

/-- Example filename metadata: platform `s1a`, a start time, no end time. -/
def exFI : AttrMap := [("platform_shortname", .s "s1a"), ("start_time", .i 0)]

/-- Example handler over `exFile`. -/
def exFH : FileHandler Int := { file := exFile, filename_info := exFI }

/-- Example handler whose platform shortname is not a recognized one. -/
def exFHbad : FileHandler Int :=
  { file := exFile,
    filename_info := [("platform_shortname", .s "xyz"), ("start_time", .i 0)] }

/-- Example dataset-info mapping carrying an explicit `file_key`. -/
def exInfo : AttrMap := [("file_key", .s "wind_speed")]

/-- Example dataset identifier. -/
def exDs : DsId := { name := "wind_speed" }

/-- Claim C5: the platform-name lookup succeeds exactly for the three
shortnames "rs2", "s1a", "s1b" with values "RADARSAT-2", "SENTINEL-1A",
"SENTINEL-1B"; every other shortname fails the lookup, and `get_metadata`
consequently fails for such a request. -/
theorem claim_C5 :
    (platformsTable.lookup "rs2" = some "RADARSAT-2" ∧
     platformsTable.lookup "s1a" = some "SENTINEL-1A" ∧
     platformsTable.lookup "s1b" = some "SENTINEL-1B") ∧
    (∀ s : String, s ∉ recognizedShortnames → platformsTable.lookup s = none) ∧
    (∀ (α : Type) (fh : FileHandler α) (dataAttrs info : AttrMap) (s : String),
      platform_shortname fh = some (AVal.s s) → s ∉ recognizedShortnames →
      get_metadata fh dataAttrs info = none) := by
  refine ⟨⟨rfl, rfl, rfl⟩, fun s hs => platformsTable_lookup_none hs, ?_⟩
  intro α fh dataAttrs info s hps hs
  simp [get_metadata, hps, asStr, platforms, platformsTable_lookup_none hs]

/-- Witness for claim C5 at the shortname "xyz" and the example handler. -/
theorem claim_C5_witness :
    platformsTable.lookup "xyz" = none ∧ get_metadata exFHbad [] exInfo = none :=
  ⟨claim_C5.2.1 "xyz" (by decide),
   claim_C5.2.2 Int exFHbad [] exInfo "xyz" (by decide) (by decide)⟩

/-- Claim C6: whenever `filename_info` has a `start_time` key, the
`start_time` property returns exactly that value, and `end_time` returns
the `end_time` value when present and the `start_time` value otherwise
(both properties are pure reads of `filename_info` in this model,
mutating nothing). -/
theorem claim_C6 :
    ∀ (α : Type) (fh : FileHandler α) (st : AVal),
      aget fh.filename_info "start_time" = some st →
      start_time fh = some st ∧
      (∀ et : AVal, aget fh.filename_info "end_time" = some et →
        end_time fh = some et) ∧
      (aget fh.filename_info "end_time" = none → end_time fh = some st) := by
  intro α fh st h
  refine ⟨h, ?_, ?_⟩
  · intro et he
    simp [end_time, start_time, h, he]
  · intro he
    simp [end_time, start_time, h, he]

/-- Witness for claim C6 at the example handler, whose `filename_info`
has a `start_time` and no `end_time`. -/
theorem claim_C6_witness :
    start_time exFH = some (AVal.i 0) ∧ end_time exFH = some (AVal.i 0) :=
  ⟨(claim_C6 Int exFH (AVal.i 0) rfl).1,
   (claim_C6 Int exFH (AVal.i 0) rfl).2.2 rfl⟩

/-- Claim C8: `get_area_def` ignores its dataset-identifier argument: for
any two identifiers on the same handler it returns the same area. -/
theorem claim_C8 :
    ∀ (α : Type) (fh : FileHandler α) (d1 d2 : DsId),
      get_area_def fh d1 = get_area_def fh d2 := by
  intro α fh d1 d2
  rfl

/-- Claim C9: the rename steps of `get_dataset` are unreachable no-ops:
`get_dataset` equals the variant with lines 66-69 removed on every input,
and on every successful call the returned array's dims are `['y', 'x']`,
so the conditions `'lon' in data.dims` and `'lat' in data.dims` are false. -/
theorem claim_C9 :
    ∀ (α : Type) (fh : FileHandler α) (ds : DsId) (info : AttrMap),
      get_dataset fh ds info = get_dataset_norename fh ds info ∧
      (∀ da : DataArrayM α, get_dataset fh ds info = some da →
        "lon" ∉ da.dims ∧ "lat" ∉ da.dims) := by
  intro α fh ds info
  constructor
  · simp [get_dataset, get_dataset_norename, renameLines_mk]
  · intro da h
    rw [get_dataset_some_dims h]
    constructor <;> simp

end CyclObs

namespace CyclObs

/-- The concrete array `get_dataset` returns on the example file: the 2x3
grid vertically flipped, dims `['y', 'x']`, and the fully merged attributes. -/
def exDa : DataArrayM Int :=
  { dims := ["y", "x"],
    data := [[4, 5, 6], [1, 2, 3]],
    attrs := [("global_attributes", AVal.m [("Conventions", "CF-1.6")]),
              ("units", AVal.s "m s-1"),
              ("platform_shortname", AVal.s "s1a"),
              ("platform_name", AVal.s "SENTINEL-1A"),
              ("sensor", AVal.s "sar-c"),
              ("start_time", AVal.i 0),
              ("end_time", AVal.i 0),
              ("file_key", AVal.s "wind_speed"),
              ("time", AVal.t 1700000000000000000)] }

/-- Witness for claim C9 on the example call. -/
theorem claim_C9_witness :
    get_dataset exFH exDs exInfo = get_dataset_norename exFH exDs exInfo ∧
    ("lon" ∉ exDa.dims ∧ "lat" ∉ exDa.dims) :=
  ⟨(claim_C9 Int exFH exDs exInfo).1,
   (claim_C9 Int exFH exDs exInfo).2 exDa (by decide)⟩

/-- Claim C1: on a source variable whose squeezed data is an H-row grid,
`get_dataset` returns an array with dims `['y', 'x']`, H rows of the
source row width, and row `i` of the result equal to row `H-1-i` of the
squeezed pre-flip source data. -/
theorem claim_C1 :
    ∀ (α : Type) (fh : FileHandler α) (ds : DsId) (info : AttrMap)
      (fk : String) (v : NCVariable α) (m : List (List α)) (H W : Nat)
      (da : DataArrayM α),
      file_key_of ds info = some fk →
      fh.file.vars.lookup fk = some v →
      squeeze v.data = m →
      m.length = H →
      (∀ r ∈ m, r.length = W) →
      get_dataset fh ds info = some da →
      da.dims = ["y", "x"] ∧ da.data.length = H ∧
      (∀ r ∈ da.data, r.length = W) ∧
      (∀ i : Nat, i < H → da.data[i]? = m[H - 1 - i]?) := by
  intro α fh ds info fk v m H W da hfk hv hm hH hW hds
  simp only [get_dataset, Option.bind_eq_bind, Option.bind_eq_some, Option.pure_def,
    Option.some.injEq] at hds
  obtain ⟨fk2, hfk2, v2, hv2, t0, ht0, meta, hmeta, hda⟩ := hds
  rw [hfk] at hfk2
  cases hfk2
  rw [hv] at hv2
  cases hv2
  rw [← hda, renameLines_mk]
  refine ⟨rfl, ?_, ?_, ?_⟩
  · simp [chunkAuto, flipud, hm, hH]
  · intro r hr
    simp only [chunkAuto, flipud, hm] at hr
    rw [List.mem_reverse] at hr
    exact hW r hr
  · intro i hi
    simp only [chunkAuto, flipud, hm]
    rw [List.getElem?_reverse (by rw [hH]; exact hi), hH]

/-- Witness for claim C1 on the example call: the returned rows are the
source rows in reverse order. -/
theorem claim_C1_witness :
    exDa.dims = ["y", "x"] ∧
    exDa.data[0]? = ([[1, 2, 3], [4, 5, 6]] : List (List Int))[1]? ∧
    exDa.data[1]? = ([[1, 2, 3], [4, 5, 6]] : List (List Int))[0]? := by
  have h := claim_C1 Int exFH exDs exInfo "wind_speed" exVar
    ([[1, 2, 3], [4, 5, 6]] : List (List Int)) 2 3 exDa rfl rfl rfl rfl
    (by decide) (by decide)
  exact ⟨h.1, h.2.2.2 0 (by decide), h.2.2.2 1 (by decide)⟩

end CyclObs

namespace CyclObs

/-- Claim C2: with 1-D coordinate vectors `lon` of length W and `lat` of
length H (both nonempty), `get_area_def` returns the fixed-identity
EPSG:4326 area of width W and height H whose extent is the mesh corner
values: lower-left `(lon[0], flip_lat[H-1]) = (lon[0], lat[0])` and
upper-right `(lon[W-1], flip_lat[0]) = (lon[W-1], lat[H-1])`. -/
theorem claim_C2 :
    ∀ (α : Type) (fh : FileHandler α) (d : DsId) (H W : Nat),
      fh.file.lat.length = H → fh.file.lon.length = W → 0 < H → 0 < W →
      ∃ llx lly urx ury : α,
        fh.file.lon[0]? = some llx ∧ fh.file.lat[0]? = some lly ∧
        fh.file.lon[W - 1]? = some urx ∧ fh.file.lat[H - 1]? = some ury ∧
        get_area_def fh d = some
          { area_id := "cyclobs", description := "CyclObs L2 WGS84",
            proj_id := "World Geodetic System 1984", projection := "EPSG:4326",
            width := W, height := H, area_extent := (llx, lly, urx, ury) } := by
  intro α fh d H W hH hW hH0 hW0
  have hH1 : H - 1 < H := Nat.sub_lt hH0 Nat.one_pos
  have hW1 : W - 1 < W := Nat.sub_lt hW0 Nat.one_pos
  obtain ⟨llx, hllx⟩ : ∃ a, fh.file.lon[0]? = some a := by
    rw [List.getElem?_eq_getElem (by rw [hW]; exact hW0)]
    exact ⟨_, rfl⟩
  obtain ⟨lly, hlly⟩ : ∃ a, fh.file.lat[0]? = some a := by
    rw [List.getElem?_eq_getElem (by rw [hH]; exact hH0)]
    exact ⟨_, rfl⟩
  obtain ⟨urx, hurx⟩ : ∃ a, fh.file.lon[W - 1]? = some a := by
    rw [List.getElem?_eq_getElem (by rw [hW]; exact hW1)]
    exact ⟨_, rfl⟩
  obtain ⟨ury, hury⟩ : ∃ a, fh.file.lat[H - 1]? = some a := by
    rw [List.getElem?_eq_getElem (by rw [hH]; exact hH1)]
    exact ⟨_, rfl⟩
  have erev1 : fh.file.lat.reverse[H - 1]? = some lly := by
    rw [List.getElem?_reverse (by rw [hH]; exact hH1), hH, Nat.sub_self]
    exact hlly
  have erev0 : fh.file.lat.reverse[0]? = some ury := by
    rw [List.getElem?_reverse (by rw [hH]; exact hH0), hH, Nat.sub_zero]
    exact hury
  refine ⟨llx, lly, urx, ury, hllx, hlly, hurx, hury, ?_⟩
  have c1 : idx2 (meshgrid fh.file.lon fh.file.lat.reverse).1 (H - 1) 0 = some llx := by
    simp only [meshgrid, idx2, List.getElem?_map, erev1]
    simp [hllx, hW, hW0]
  have c2 : idx2 (meshgrid fh.file.lon fh.file.lat.reverse).2 (H - 1) 0 = some lly := by
    simp only [meshgrid, idx2, List.getElem?_map, erev1]
    simp [hllx, hW, hW0]
  have c3 : idx2 (meshgrid fh.file.lon fh.file.lat.reverse).2 0 (W - 1) = some ury := by
    simp only [meshgrid, idx2, List.getElem?_map, erev0]
    simp [hurx, hW, hW1]
  have c4 : idx2 (meshgrid fh.file.lon fh.file.lat.reverse).1 0 (W - 1) = some urx := by
    simp only [meshgrid, idx2, List.getElem?_map, erev0]
    simp [hurx, hW, hW1]
  simp only [get_area_def]
  rw [hH, hW]
  simp only [Option.bind_eq_bind, c1, c2, c3, c4, Option.some_bind]
  rfl

/-- Witness for claim C2 on the example file (H = 2, W = 3). -/
theorem claim_C2_witness :
    get_area_def exFH exDs = some
      { area_id := "cyclobs", description := "CyclObs L2 WGS84",
        proj_id := "World Geodetic System 1984", projection := "EPSG:4326",
        width := 3, height := 2, area_extent := ((100 : Int), 10, 120, 20) } := by
  obtain ⟨llx, lly, urx, ury, h1, h2, h3, h4, h5⟩ :=
    claim_C2 Int exFH exDs 2 3 rfl rfl (by decide) (by decide)
  rw [show exFH.file.lon[0]? = some (100 : Int) from rfl] at h1
  rw [show exFH.file.lat[0]? = some (10 : Int) from rfl] at h2
  rw [show exFH.file.lon[3 - 1]? = some (120 : Int) from rfl] at h3
  rw [show exFH.file.lat[2 - 1]? = some (20 : Int) from rfl] at h4
  cases h1
  cases h2
  cases h3
  cases h4
  exact h5

end CyclObs

namespace CyclObs

theorem get_metadata_some {α : Type} {fh : FileHandler α} {dataAttrs info md : AttrMap}
    (h : get_metadata fh dataAttrs info = some md) :
    ∃ (ps : AVal) (psStr pn : String) (st et fkV : AVal) (fk : String)
      (v : NCVariable α),
      platform_shortname fh = some ps ∧ asStr ps = some psStr ∧
      (platforms fh).lookup psStr = some pn ∧ start_time fh = some st ∧
      end_time fh = some et ∧ aget info "file_key" = some fkV ∧
      asStr fkV = some fk ∧ fh.file.vars.lookup fk = some v ∧
      md = aupd (aupd (aupd (aupd (aupd [] dataAttrs) info) (derivedOf ps pn st et))
        v.attrs) [("global_attributes", AVal.m fh.file.globalAttrs)] := by
  simp only [get_metadata, Option.bind_eq_bind, Option.bind_eq_some, Option.pure_def,
    Option.some.injEq] at h
  obtain ⟨ps, h1, psStr, h2, pn, h3, st, h4, et, h5, fkV, h6, fk, h7, v, h8, h9⟩ := h
  exact ⟨ps, psStr, pn, st, et, fkV, fk, v, h1, h2, h3, h4, h5, h6, h7, h8, h9.symm⟩

/-- Claim C7: when the resolved source variable's first `time` sample is
the integer `t0` nanoseconds and no later merge stage carries a `time`
key (`info` and the variable's native attributes are the only later
stages that could), the returned array's attributes bind `time` to the
calendar timestamp derived from `t0`: the attribute is set before
`get_metadata` runs and enters the merge as part of stage (1). -/
theorem claim_C7 :
    ∀ (α : Type) (fh : FileHandler α) (ds : DsId) (info : AttrMap)
      (fk : String) (v : NCVariable α) (t0 : Int) (da : DataArrayM α),
      aget info "file_key" = some (AVal.s fk) →
      fh.file.vars.lookup fk = some v →
      v.timeNs.head? = some t0 →
      aget info "time" = none →
      aget v.attrs "time" = none →
      get_dataset fh ds info = some da →
      aget da.attrs "time" = some (utcfromtimestampNs t0) := by
  intro α fh ds info fk v t0 da hfk hv ht hit hvt hds
  simp only [get_dataset, Option.bind_eq_bind, Option.bind_eq_some, Option.pure_def,
    Option.some.injEq] at hds
  obtain ⟨fk2, hfk2, v2, hv2, t02, ht02, meta, hmeta, hda⟩ := hds
  have hfkres : file_key_of ds info = some fk := by simp [file_key_of, hfk, asStr]
  rw [hfkres] at hfk2
  cases hfk2
  rw [hv] at hv2
  cases hv2
  rw [ht] at ht02
  cases ht02
  obtain ⟨ps, psStr, pn, st, et, fkV, fk3, v3, g1, g2, g3, g4, g5, g6, g7, g8, g9⟩ :=
    get_metadata_some hmeta
  rw [hfk] at g6
  cases g6
  simp only [asStr, Option.some.injEq] at g7
  cases g7
  rw [hv] at g8
  cases g8
  rw [← hda, renameLines_mk]
  subst g9
  simp only [chunkAuto]
  simp only [aget_aupd]
  rw [hvt, hit]
  rfl

/-- Witness for claim C7 on the example call. -/
theorem claim_C7_witness :
    aget exDa.attrs "time" = some (utcfromtimestampNs 1700000000000000000) :=
  claim_C7 Int exFH exDs exInfo "wind_speed" exVar 1700000000000000000 exDa
    rfl rfl rfl rfl rfl rfl

/-- Claim C3: on every successful `get_metadata` call the result is the
five-stage merge (1) `data.attrs`, (2) `info`, (3) derived fields, (4)
the stage-4 variable's native attributes, (5) the single nested
`global_attributes` binding, later stages overwriting earlier ones; the
derived fields win over both `data.attrs` and `info` on key collision,
and the file's global attributes appear only nested under
`global_attributes`, never flattened into the top level. -/
theorem claim_C3 :
    ∀ (α : Type) (fh : FileHandler α) (dataAttrs info : AttrMap) (ps : AVal)
      (psStr pn : String) (st et : AVal) (fk : String) (v : NCVariable α),
      platform_shortname fh = some ps → asStr ps = some psStr →
      (platforms fh).lookup psStr = some pn →
      start_time fh = some st → end_time fh = some et →
      aget info "file_key" = some (AVal.s fk) →
      fh.file.vars.lookup fk = some v →
      (get_metadata fh dataAttrs info =
        some (aupd (aupd (aupd (aupd (aupd [] dataAttrs) info)
          (derivedOf ps pn st et)) v.attrs)
          [("global_attributes", AVal.m fh.file.globalAttrs)])) ∧
      (∀ k, k ∈ akeys (derivedOf ps pn st et) →
        aget (aupd (aupd (aupd [] dataAttrs) info) (derivedOf ps pn st et)) k =
          aget (derivedOf ps pn st et) k) ∧
      (∀ md, get_metadata fh dataAttrs info = some md →
        aget md "global_attributes" = some (AVal.m fh.file.globalAttrs) ∧
        ∀ k, k ∉ akeys dataAttrs → k ∉ akeys info →
          k ∉ akeys (derivedOf ps pn st et) → k ∉ akeys v.attrs →
          k ≠ "global_attributes" → aget md k = none) := by
  intro α fh dataAttrs info ps psStr pn st et fk v h1 h2 h3 h4 h5 h6 h7
  have hfk3 : asStr (AVal.s fk) = some fk := rfl
  have hmain : get_metadata fh dataAttrs info =
      some (aupd (aupd (aupd (aupd (aupd [] dataAttrs) info)
        (derivedOf ps pn st et)) v.attrs)
        [("global_attributes", AVal.m fh.file.globalAttrs)]) := by
    simp [get_metadata, h1, h2, h3, h4, h5, h6, h7, hfk3]
  refine ⟨hmain, ?_, ?_⟩
  · intro k hk
    obtain ⟨val, hval⟩ := Option.isSome_iff_exists.mp
      (aget_isSome_of_mem (derivedOf ps pn st et) k hk)
    rw [aget_aupd, hval]
    rfl
  · intro md hmd
    rw [hmain] at hmd
    cases hmd
    constructor
    · rw [aget_aupd]
      simp [aget, List.lookup]
    · intro k hk1 hk2 hk3 hk4 hk5
      rw [aget_aupd, aget_aupd, aget_aupd, aget_aupd, aget_aupd]
      rw [aget_eq_none_of_not_mem dataAttrs k hk1,
        aget_eq_none_of_not_mem info k hk2,
        aget_eq_none_of_not_mem (derivedOf ps pn st et) k hk3,
        aget_eq_none_of_not_mem v.attrs k hk4]
      have hg : aget [("global_attributes", AVal.m fh.file.globalAttrs)] k = none := by
        apply aget_eq_none_of_not_mem
        simp [akeys, hk5]
      rw [hg]
      rfl

/-- Example stage-1 attributes for the claim C3 witness: a `sensor` key
that collides with a derived field. -/
def exAttrsC3 : AttrMap := [("sensor", AVal.s "bogus")]

/-- The derived fields of the example handler. -/
def exDerived : AttrMap :=
  derivedOf (AVal.s "s1a") "SENTINEL-1A" (AVal.i 0) (AVal.i 0)

/-- The five-stage merge result on the example handler and `exAttrsC3`. -/
def exMergedC3 : AttrMap :=
  aupd (aupd (aupd (aupd (aupd [] exAttrsC3) exInfo) exDerived) exVar.attrs)
    [("global_attributes", AVal.m exFile.globalAttrs)]

/-- Witness for claim C3 on the example handler: the merge equation, the
derived `sensor` winning over the colliding stage-1 value, the nested
global attributes, and the global-attribute key `Conventions` not being
flattened to the top level. -/
theorem claim_C3_witness :
    get_metadata exFH exAttrsC3 exInfo = some exMergedC3 ∧
    aget (aupd (aupd (aupd [] exAttrsC3) exInfo) exDerived) "sensor" =
      aget exDerived "sensor" ∧
    aget exMergedC3 "global_attributes" = some (AVal.m exFile.globalAttrs) ∧
    aget exMergedC3 "Conventions" = none := by
  have h := claim_C3 Int exFH exAttrsC3 exInfo (AVal.s "s1a") "s1a" "SENTINEL-1A"
    (AVal.i 0) (AVal.i 0) "wind_speed" exVar rfl rfl rfl rfl rfl rfl rfl
  refine ⟨h.1, h.2.1 "sensor" (by decide), ?_, ?_⟩
  · exact (h.2.2 exMergedC3 h.1).1
  · exact (h.2.2 exMergedC3 h.1).2 "Conventions" (by decide) (by decide)
      (by decide) (by decide) (by decide)

/-- Claim C4 evaluated at its failing input: on the well-formed example
file, with `info` lacking a `file_key`, `get_dataset` resolves the
variable name to `ds_id['name']` and that variable exists, yet the call
fails, because `get_metadata` stage (4) indexes the file with
`info.get('file_key')` — `None` — instead of the resolved name. -/
theorem claim_C4_failing :
    file_key_of exDs ([] : AttrMap) = some "wind_speed" ∧
    exFH.file.vars.lookup "wind_speed" = some exVar ∧
    get_metadata exFH [("time", AVal.t 1700000000000000000)] ([] : AttrMap) = none ∧
    get_dataset exFH exDs ([] : AttrMap) = none :=
  ⟨rfl, rfl, rfl, rfl⟩

end CyclObs

namespace CyclObs

/-- Evaluation of the stage-(3) derived-field dictionary literal of
`get_metadata`: the platform lookups and time property reads that can
raise while the literal is being built. -/
def derivedPure {α : Type} (fh : FileHandler α) : Option AttrMap := do
  let ps ← platform_shortname fh
  let psStr ← asStr ps
  let pn ← (platforms fh).lookup psStr
  let st ← start_time fh
  let et ← end_time fh
  pure (derivedOf ps pn st et)

/-- Evaluation of the stage-(4) read `self[info.get('file_key')].variable`. -/
def stage4Var {α : Type} (fh : FileHandler α) (info : AttrMap) :
    Option (NCVariable α) :=
  ((aget info "file_key").bind asStr).bind (fun fk => fh.file.vars.lookup fk)

/-- A store of Python dictionaries addressed by reference. -/
abbrev Store := List AttrMap

/-- Read the dictionary a reference points to. -/
def sget (stor : Store) (r : Nat) : AttrMap := stor.getD r []

/-- In-place write through a reference (`d.update(...)` semantics). -/
def swrite (stor : Store) (r : Nat) (m : AttrMap) : Store := stor.set r m

theorem swrite_length (stor : Store) (r : Nat) (m : AttrMap) :
    (swrite stor r m).length = stor.length := by
  simp [swrite]

theorem sget_swrite_ne (stor : Store) (r r2 : Nat) (m : AttrMap) (h : r ≠ r2) :
    sget (swrite stor r m) r2 = sget stor r2 := by
  simp [sget, swrite, List.getD_eq_getElem?_getD, List.getElem?_set_ne h]

theorem sget_swrite_self (stor : Store) (r : Nat) (m : AttrMap)
    (h : r < stor.length) : sget (swrite stor r m) r = m := by
  simp [sget, swrite, List.getD_eq_getElem?_getD, List.getElem?_set_self h]

theorem sget_append_lt (stor : Store) (m : AttrMap) (r : Nat)
    (h : r < stor.length) : sget (stor ++ [m]) r = sget stor r := by
  simp [sget, List.getD_eq_getElem?_getD, List.getElem?_append_left h]

theorem sget_append_len (stor : Store) (m : AttrMap) :
    sget (stor ++ [m]) stor.length = m := by
  simp [sget, List.getD_eq_getElem?_getD, List.getElem?_concat_length]

/-- Imperative embedding of `get_metadata`'s body: `metadata = {}`
allocates a fresh dictionary (at reference `stor.length`), and every
`metadata.update(...)` writes through that reference only, in source
order; the two fallible evaluations (the derived-field literal and the
stage-4 variable read) abort with the store as mutated so far. The
dictionaries bound to `data.attrs` and `info` are read, never written. -/
def get_metadata_st {α : Type} (fh : FileHandler α) (stor : Store)
    (dataRef infoRef : Nat) : Store × Option Nat :=
  let dataAttrs := sget stor dataRef
  let info := sget stor infoRef
  let s1 := stor ++ [[]]
  let r := stor.length
  let s2 := swrite s1 r (aupd (sget s1 r) dataAttrs)
  let s3 := swrite s2 r (aupd (sget s2 r) info)
  match derivedPure fh with
  | none => (s3, none)
  | some der =>
    let s4 := swrite s3 r (aupd (sget s3 r) der)
    match stage4Var fh info with
    | none => (s4, none)
    | some v =>
      let s5 := swrite s4 r (aupd (sget s4 r) v.attrs)
      let s6 := swrite s5 r
        (aupd (sget s5 r) [("global_attributes", AVal.m fh.file.globalAttrs)])
      (s6, some r)

theorem get_metadata_st_spec {α : Type} (fh : FileHandler α) (stor : Store)
    (dataRef infoRef : Nat) (der : AttrMap) (v : NCVariable α)
    (hder : derivedPure fh = some der)
    (hvar : stage4Var fh (sget stor infoRef) = some v) :
    (get_metadata_st fh stor dataRef infoRef).2 = some stor.length ∧
    sget (get_metadata_st fh stor dataRef infoRef).1 stor.length =
      aupd (aupd (aupd (aupd (aupd [] (sget stor dataRef)) (sget stor infoRef))
        der) v.attrs) [("global_attributes", AVal.m fh.file.globalAttrs)] := by
  simp only [get_metadata_st, hder, hvar]
  refine ⟨trivial, ?_⟩
  simp [sget_swrite_self, swrite_length, sget_append_len, Nat.lt_succ_self,
    List.length_append]

/-- Claim C10: `get_metadata` does not mutate its inputs: in the store
embedding, the dictionaries referenced by `data.attrs` and `info` are
unchanged after the call (whether it succeeds or aborts), the result is
accumulated in the freshly allocated dictionary and equals the pure
`get_metadata` value, and it is the caller `get_dataset` that reassigns
the array's attributes to the returned mapping. -/
theorem claim_C10 :
    ∀ (α : Type) (fh : FileHandler α) (stor : Store) (dataRef infoRef : Nat),
      dataRef < stor.length → infoRef < stor.length →
      (sget (get_metadata_st fh stor dataRef infoRef).1 dataRef =
        sget stor dataRef ∧
       sget (get_metadata_st fh stor dataRef infoRef).1 infoRef =
        sget stor infoRef) ∧
      (∀ r, (get_metadata_st fh stor dataRef infoRef).2 = some r →
        some (sget (get_metadata_st fh stor dataRef infoRef).1 r) =
          get_metadata fh (sget stor dataRef) (sget stor infoRef)) ∧
      (∀ (ds : DsId) (info2 : AttrMap) (da : DataArrayM α) (t0 : Int)
         (fk : String) (v : NCVariable α),
        file_key_of ds info2 = some fk →
        fh.file.vars.lookup fk = some v →
        v.timeNs.head? = some t0 →
        get_dataset fh ds info2 = some da →
        get_metadata fh (aupd [] [("time", utcfromtimestampNs t0)]) info2 =
          some da.attrs) := by
  intro α fh stor dataRef infoRef hd hi
  have hrd : stor.length ≠ dataRef := (Nat.ne_of_lt hd).symm
  have hri : stor.length ≠ infoRef := (Nat.ne_of_lt hi).symm
  refine ⟨?_, ?_, ?_⟩
  · simp only [get_metadata_st]
    cases derivedPure fh with
    | none =>
      constructor <;>
        simp [sget_swrite_ne _ _ _ _ hrd, sget_swrite_ne _ _ _ _ hri,
          sget_append_lt _ _ _ hd, sget_append_lt _ _ _ hi]
    | some der =>
      cases stage4Var fh (sget stor infoRef) with
      | none =>
        constructor <;>
          simp [sget_swrite_ne _ _ _ _ hrd, sget_swrite_ne _ _ _ _ hri,
            sget_append_lt _ _ _ hd, sget_append_lt _ _ _ hi]
      | some v =>
        constructor <;>
          simp [sget_swrite_ne _ _ _ _ hrd, sget_swrite_ne _ _ _ _ hri,
            sget_append_lt _ _ _ hd, sget_append_lt _ _ _ hi]
  · intro r hr
    cases hder : derivedPure fh with
    | none =>
      have hnone : (get_metadata_st fh stor dataRef infoRef).2 = none := by
        simp [get_metadata_st, hder]
      rw [hnone] at hr
      exact Option.noConfusion hr
    | some der =>
      cases hvar : stage4Var fh (sget stor infoRef) with
      | none =>
        have hnone : (get_metadata_st fh stor dataRef infoRef).2 = none := by
          simp [get_metadata_st, hder, hvar]
        rw [hnone] at hr
        exact Option.noConfusion hr
      | some v =>
        obtain ⟨h2, h1⟩ :=
          get_metadata_st_spec fh stor dataRef infoRef der v hder hvar
        rw [h2] at hr
        obtain rfl : stor.length = r := Option.some.inj hr
        rw [h1]
        simp only [derivedPure, Option.bind_eq_bind, Option.bind_eq_some,
          Option.pure_def, Option.some.injEq] at hder
        obtain ⟨ps, g1, psStr, g2, pn, g3, st, g4, et, g5, heq⟩ := hder
        simp only [stage4Var, Option.bind_eq_bind, Option.bind_eq_some] at hvar
        obtain ⟨fk, ⟨fkV, g6, g7⟩, g8⟩ := hvar
        simp [get_metadata, g1, g2, g3, g4, g5, g6, g7, g8, ← heq]
  · intro ds info2 da t0 fk v hfk hv ht hds
    simp only [get_dataset, Option.bind_eq_bind, Option.bind_eq_some,
      Option.pure_def, Option.some.injEq] at hds
    obtain ⟨fk2, hfk2, v2, hv2, t02, ht02, meta, hmeta, hda⟩ := hds
    rw [hfk] at hfk2
    cases hfk2
    rw [hv] at hv2
    cases hv2
    rw [ht] at ht02
    cases ht02
    rw [← hda, renameLines_mk]
    simpa [chunkAuto] using hmeta

/-- Witness for claim C10: on a concrete two-cell store holding the
`data.attrs` and `info` dictionaries, both are unchanged by the call. -/
theorem claim_C10_witness :
    sget (get_metadata_st exFH [[("foo", AVal.i 7)], exInfo] 0 1).1 0 =
      [("foo", AVal.i 7)] ∧
    sget (get_metadata_st exFH [[("foo", AVal.i 7)], exInfo] 0 1).1 1 = exInfo := by
  have h := claim_C10 Int exFH [[("foo", AVal.i 7)], exInfo] 0 1
    (by decide) (by decide)
  exact ⟨h.1.1, h.1.2⟩

end CyclObs
